import Mathlib

/-!
Verification development for the `proxy.py` reverse proxy
(`openaicproxy`): a shallow embedding of its request rewriting,
streaming/non-streaming relays and retry/backoff engine, with theorems
settling the specification claims.

Modelling conventions:
* JSON documents are modelled by the mutual inductive `Json` below.
  Python dicts are association lists in insertion order (Python 3.7+
  dict semantics); numeric JSON literals are modelled as integers
  (the proxy's rewriting only ever inspects or produces integer
  values; documents containing floating-point literals simply fall
  outside the `loads` model's domain and are treated as parse
  failures, which the code tolerates everywhere it parses).
* `bytes` values that the code decodes as UTF-8 are modelled as
  `List Char` (a decodable chunk) or as an opaque payload (a
  non-decodable chunk), see `Chunk`.
* Python exceptions are modelled with `Except PyErr`; the distinction
  between exception classes matters because the source's inner
  `except (json.JSONDecodeError, ValueError)` handlers catch only
  those, while `TypeError`/`AttributeError` escape to an outer
  handler.
-/

/- A JSON value as manipulated by `json.loads`/`json.dumps` in
`proxy.py`.  Mutual with the spine types of arrays and objects so that
all functions below are plain structural recursions. -/
mutual
inductive Json where
  | null : Json
  | bool (b : Bool) : Json
  | num (n : Int) : Json
  | str (s : String) : Json
  | arr (items : JsonList) : Json
  | obj (fields : JsonObj) : Json
  deriving DecidableEq
inductive JsonList where
  | nil : JsonList
  | cons (hd : Json) (tl : JsonList) : JsonList
  deriving DecidableEq
inductive JsonObj where
  | nil : JsonObj
  | cons (key : String) (val : Json) (tl : JsonObj) : JsonObj
  deriving DecidableEq
end

namespace JsonObj

/-- Python `d.get(k)` / `d[k]` on a dict: first binding of the key
(keys are unique in dicts produced by `json.loads`). -/
def get : JsonObj → String → Option Json
  | .nil, _ => none
  | .cons k v t, key => if k = key then some v else get t key

/-- Python `k in d`. -/
def has (o : JsonObj) (key : String) : Bool :=
  (o.get key).isSome

/-- Python `d.get(k, default)`. -/
def getD (o : JsonObj) (key : String) (dflt : Json) : Json :=
  (o.get key).getD dflt

/-- Python `d[k] = v`: replace the value at the key's existing
position, else append a new binding. -/
def set : JsonObj → String → Json → JsonObj
  | .nil, key, v => .cons key v .nil
  | .cons k w t, key, v =>
      if k = key then .cons k v t else .cons k w (set t key v)

/-- Python `d.pop(k, None)`: drop the binding of the key. -/
def pop : JsonObj → String → JsonObj
  | .nil, _ => .nil
  | .cons k v t, key => if k = key then pop t key else .cons k v (pop t key)

/-- Keys in insertion order. -/
def keys : JsonObj → List String
  | .nil => []
  | .cons k _ t => k :: keys t

/-- Number of bindings (Python `len(d)`). -/
def size : JsonObj → Nat
  | .nil => 0
  | .cons _ _ t => size t + 1

end JsonObj

namespace JsonList

/-- Spine length (Python `len(l)`). -/
def size : JsonList → Nat
  | .nil => 0
  | .cons _ t => size t + 1

/-- Python `x in l` (list membership by equality). -/
def mem (l : JsonList) (x : Json) : Bool :=
  match l with
  | .nil => false
  | .cons h t => h = x || mem t x

end JsonList

/-- Python truthiness of a JSON-shaped value (`if x:`). -/
def jsonTruthy : Json → Bool
  | .null => false
  | .bool b => b
  | .num n => n != 0
  | .str s => s.data != []
  | .arr l => l != .nil
  | .obj o => o != .nil

/-- `isinstance(x, dict)`. -/
def isDict : Json → Bool
  | .obj _ => true
  | _ => false

/-- `isinstance(x, list)`. -/
def isList : Json → Bool
  | .arr _ => true
  | _ => false

/-- `isinstance(x, str)`. -/
def isStr : Json → Bool
  | .str _ => true
  | _ => false

/-- `isinstance(x, bool)` (Python `bool` is not any other JSON type in
this model; note `1` is not a `bool`). -/
def isBool : Json → Bool
  | .bool _ => true
  | _ => false

/-- Python hashability of a JSON-shaped value: lists and dicts are
unhashable (`set.add` / `in set` raise `TypeError` on them). -/
def jsonHashable : Json → Bool
  | .arr _ => false
  | .obj _ => false
  | _ => true

/-- Exception classes that matter to `proxy.py`'s handlers.
`valueError` covers `ValueError` and its subclass
`json.JSONDecodeError` (both caught by the inner
`except (json.JSONDecodeError, ValueError)` handlers); `typeError`
and `attrError` escape those handlers and reach the enclosing
`except Exception`. -/
inductive PyErr where
  | valueError : PyErr
  | typeError : PyErr
  | attrError : PyErr
  deriving DecidableEq

/-- Decidable equality of `Except` results, so that concrete runs of
the exception-aware transforms can be checked by `decide`. -/
instance exceptDecEq {ε α : Type} [DecidableEq ε] [DecidableEq α] :
    DecidableEq (Except ε α)
  | .ok a, .ok b =>
      if h : a = b then .isTrue (congrArg _ h)
      else .isFalse (fun he => h (Except.ok.inj he))
  | .error a, .error b =>
      if h : a = b then .isTrue (congrArg _ h)
      else .isFalse (fun he => h (Except.error.inj he))
  | .ok _, .error _ => .isFalse (fun he => Except.noConfusion he)
  | .error _, .ok _ => .isFalse (fun he => Except.noConfusion he)

/-- Characters stripped by Python `str.strip()` (the ASCII whitespace
relevant to SSE framing). -/
def pySpace (c : Char) : Bool :=
  c = ' ' || c = '\t' || c = '\n' || c = '\r' || c = '\x0b' || c = '\x0c'

/-- Drop leading stripped characters. -/
def dropLeadingSpace : List Char → List Char
  | [] => []
  | c :: cs => if pySpace c then dropLeadingSpace cs else c :: cs

/-- Python `s.strip()` on a character list. -/
def pyStrip (s : List Char) : List Char :=
  ((dropLeadingSpace ((dropLeadingSpace s.reverse)).reverse))

/-- Python substring test `needle in hay` on character lists. -/
def isSubList (needle : List Char) : List Char → Bool
  | [] => needle.isPrefixOf []
  | c :: t => needle.isPrefixOf (c :: t) || isSubList needle t

/-- Python substring test `needle in hay` on strings. -/
def strContains (hay needle : String) : Bool :=
  isSubList needle.data hay.data

/-- Decimal digit test (code points 0x30-0x39). -/
def isDigitChar (c : Char) : Bool :=
  48 ≤ c.toNat && c.toNat ≤ 57

/-- Value of a decimal digit. -/
def digitVal (c : Char) : Nat :=
  c.toNat - 48

/-- Horner evaluation of a digit list. -/
def digitsToNat : List Char → Nat → Nat
  | [], acc => acc
  | c :: t, acc => digitsToNat t (acc * 10 + digitVal c)

/-- Core of Python `int(str)` after sign handling: digits with single
underscores allowed strictly between digits. -/
def pyIntDigits : List Char → Bool
  | [] => false
  | [c] => isDigitChar c
  | c :: '_' :: rest => isDigitChar c && pyIntDigits rest
  | c :: rest => isDigitChar c && pyIntDigits rest

/-- Drop the underscores of an accepted `int()` literal. -/
def dropUnderscores : List Char → List Char
  | [] => []
  | '_' :: t => dropUnderscores t
  | c :: t => c :: dropUnderscores t

/-- Python `int(s)`: strip surrounding whitespace, optional sign, then
decimal digits (underscores permitted between digits); `none` models
the `ValueError` raised on any other shape. -/
def pyInt (s : List Char) : Option Int :=
  let t := pyStrip s
  let core : List Char → Option Int := fun ds =>
    if pyIntDigits ds then some (Int.ofNat (digitsToNat (dropUnderscores ds) 0))
    else none
  match t with
  | '-' :: rest => (core rest).map (fun n => -n)
  | '+' :: rest => core rest
  | _ => core t

/-- Python `int(s)` on a `String`. -/
def pyIntStr (s : String) : Option Int :=
  pyInt s.data

/-- JSON parsing: skip insignificant whitespace. -/
def skipWs : List Char → List Char
  | [] => []
  | c :: cs => if c = ' ' || c = '\t' || c = '\n' || c = '\r' then skipWs cs else c :: cs

/-- Hex digit value for `\uXXXX` escapes, by code-point ranges
(0x30-0x39, 0x61-0x66, 0x41-0x46). -/
def hexVal (c : Char) : Option Nat :=
  let n := c.toNat
  if 48 ≤ n && n ≤ 57 then some (n - 48)
  else if 97 ≤ n && n ≤ 102 then some (n - 87)
  else if 65 ≤ n && n ≤ 70 then some (n - 55)
  else none

/-- Four-hex-digit value. -/
def hex4 (a b c d : Char) : Option Nat :=
  match hexVal a, hexVal b, hexVal c, hexVal d with
  | some x, some y, some z, some w => some (4096 * x + 256 * y + 16 * z + w)
  | _, _, _, _ => none

/-- Body of a JSON string literal, after the opening quote: returns
the decoded characters and the input following the closing quote.
Strict mode (Python's default): raw control characters are rejected;
escapes are the JSON ones; surrogate `\u` pairs are combined (lone
surrogates, which Python tolerates, are outside this model). -/
def parseStrBody : List Char → Option (List Char × List Char)
  | [] => none
  | '"' :: rest => some ([], rest)
  | '\\' :: esc => parseEsc esc
  | c :: rest =>
      if c.toNat < 0x20 then none
      else (parseStrBody rest).map (fun (s, r) => (c :: s, r))
where
  /-- Decode one escape sequence then continue. -/
  parseEsc : List Char → Option (List Char × List Char)
  | '"' :: rest => (parseStrBody rest).map (fun (s, r) => ('"' :: s, r))
  | '\\' :: rest => (parseStrBody rest).map (fun (s, r) => ('\\' :: s, r))
  | '/' :: rest => (parseStrBody rest).map (fun (s, r) => ('/' :: s, r))
  | 'b' :: rest => (parseStrBody rest).map (fun (s, r) => ('\x08' :: s, r))
  | 'f' :: rest => (parseStrBody rest).map (fun (s, r) => ('\x0c' :: s, r))
  | 'n' :: rest => (parseStrBody rest).map (fun (s, r) => ('\n' :: s, r))
  | 'r' :: rest => (parseStrBody rest).map (fun (s, r) => ('\r' :: s, r))
  | 't' :: rest => (parseStrBody rest).map (fun (s, r) => ('\t' :: s, r))
  | 'u' :: a :: b :: c :: d :: rest =>
      match hex4 a b c d with
      | none => none
      | some n =>
        if n < 0xD800 || 0xDFFF < n then
          if n.isValidChar then
            (parseStrBody rest).map (fun (s, r) => (Char.ofNat n :: s, r))
          else none
        else if n < 0xDC00 then
          -- high surrogate: require a following low surrogate
          match rest with
          | '\\' :: 'u' :: a2 :: b2 :: c2 :: d2 :: rest2 =>
              match hex4 a2 b2 c2 d2 with
              | none => none
              | some m =>
                if 0xDC00 ≤ m && m ≤ 0xDFFF then
                  let v := 0x10000 + (n - 0xD800) * 0x400 + (m - 0xDC00)
                  if v.isValidChar then
                    (parseStrBody rest2).map (fun (s, r) => (Char.ofNat v :: s, r))
                  else none
                else none
          | _ => none
        else none
  | _ => none

/-- Integer literal: optional minus, no leading zeros; a following
`.`/`e`/`E` would make it a float, which is outside this model. -/
def parseNum : List Char → Option (Json × List Char)
  | s =>
    let (neg, t) : Bool × List Char :=
      match s with
      | '-' :: t => (true, t)
      | _ => (false, s)
    match t with
    | [] => none
    | c :: rest =>
      if !isDigitChar c then none
      else
        let (ds, rest2) := spanDigits rest
        if c = '0' && ds ≠ [] then none
        else
          match rest2 with
          | '.' :: _ => none
          | 'e' :: _ => none
          | 'E' :: _ => none
          | _ =>
            let v : Int := Int.ofNat (digitsToNat (c :: ds) 0)
            some (.num (if neg then -v else v), rest2)
where
  /-- Longest digit run. -/
  spanDigits : List Char → List Char × List Char
  | [] => ([], [])
  | c :: t =>
      if isDigitChar c then
        let (ds, r) := spanDigits t
        (c :: ds, r)
      else ([], c :: t)

mutual
/-- One JSON value (recursive descent; `fuel` dominates the nesting
depth so that everything is a structural recursion that the kernel can
evaluate). -/
def parseVal : Nat → List Char → Option (Json × List Char)
  | 0, _ => none
  | fuel + 1, s =>
    match skipWs s with
    | [] => none
    | '{' :: rest =>
        (match skipWs rest with
         | '}' :: r2 => some (.obj .nil, r2)
         | _ => (parseMembers fuel rest).map
             (fun (ps, r2) => (.obj (ps.foldl (fun o p => o.set p.1 p.2) .nil), r2)))
    | '[' :: rest =>
        (match skipWs rest with
         | ']' :: r2 => some (.arr .nil, r2)
         | _ => (parseItems fuel rest).map (fun (l, r2) => (.arr l, r2)))
    | '"' :: rest => (parseStrBody rest).map (fun (s, r) => (.str (String.mk s), r))
    | 't' :: 'r' :: 'u' :: 'e' :: rest => some (.bool true, rest)
    | 'f' :: 'a' :: 'l' :: 's' :: 'e' :: rest => some (.bool false, rest)
    | 'n' :: 'u' :: 'l' :: 'l' :: rest => some (.null, rest)
    | t => parseNum t

/-- `key : value` members of an object, returned in source order
(duplicate keys are resolved by the caller's fold, matching Python
dict insertion semantics: last value wins at the first position). -/
def parseMembers : Nat → List Char → Option (List (String × Json) × List Char)
  | 0, _ => none
  | fuel + 1, s =>
    match skipWs s with
    | '"' :: rest =>
        match parseStrBody rest with
        | none => none
        | some (k, r1) =>
          match skipWs r1 with
          | ':' :: r2 =>
              match parseVal fuel r2 with
              | none => none
              | some (v, r3) =>
                match skipWs r3 with
                | ',' :: r4 =>
                    (parseMembers fuel r4).map
                      (fun (ps, r5) => ((String.mk k, v) :: ps, r5))
                | '}' :: r4 => some ([(String.mk k, v)], r4)
                | _ => none
          | _ => none
    | _ => none

/-- Comma-separated array items. -/
def parseItems : Nat → List Char → Option (JsonList × List Char)
  | 0, _ => none
  | fuel + 1, s =>
    match parseVal fuel s with
    | none => none
    | some (v, r1) =>
      match skipWs r1 with
      | ',' :: r2 => (parseItems fuel r2).map (fun (l, r3) => (.cons v l, r3))
      | ']' :: r2 => some (.cons v .nil, r2)
      | _ => none
end

/-- `json.loads` on a character list: one value, surrounding
whitespace allowed, nothing else.  `none` models
`json.JSONDecodeError` (and covers the float-bearing documents this
integer-valued model does not represent). -/
def loadsChars (s : List Char) : Option Json :=
  match parseVal (s.length + 1) s with
  | none => none
  | some (v, rest) => if skipWs rest = [] then some v else none

/-- `json.loads` on a `String`. -/
def loads (s : String) : Option Json :=
  loadsChars s.data

/-- Decimal digits of a natural number. -/
def natToCharsAux : Nat → Nat → List Char
  | 0, _ => []
  | fuel + 1, n =>
      if n < 10 then [Char.ofNat ('0'.toNat + n)]
      else natToCharsAux fuel (n / 10) ++ [Char.ofNat ('0'.toNat + n % 10)]

/-- Decimal rendering of a natural number. -/
def natToChars (n : Nat) : List Char :=
  natToCharsAux (n + 1) n

/-- Python `repr` of an int (as emitted by `json.dumps`). -/
def intToChars : Int → List Char
  | .ofNat n => natToChars n
  | .negSucc m => '-' :: natToChars (m + 1)

/-- Lowercase hex digit. -/
def hexChar (n : Nat) : Char :=
  if n < 10 then Char.ofNat ('0'.toNat + n) else Char.ofNat ('a'.toNat + (n - 10))

/-- `\uXXXX` rendering. -/
def u4 (n : Nat) : List Char :=
  ['\\', 'u', hexChar (n / 4096 % 16), hexChar (n / 256 % 16),
   hexChar (n / 16 % 16), hexChar (n % 16)]

/-- One character as `json.dumps` (default `ensure_ascii=True`)
renders it inside a string literal: printable ASCII verbatim, the
named escapes, `\uXXXX` otherwise (surrogate pairs beyond the BMP). -/
def escapeChar (c : Char) : List Char :=
  if c = '"' then ['\\', '"']
  else if c = '\\' then ['\\', '\\']
  else if c = '\n' then ['\\', 'n']
  else if c = '\r' then ['\\', 'r']
  else if c = '\t' then ['\\', 't']
  else if c = '\x08' then ['\\', 'b']
  else if c = '\x0c' then ['\\', 'f']
  else if 0x20 ≤ c.toNat && c.toNat ≤ 0x7e then [c]
  else if c.toNat < 0x10000 then u4 c.toNat
  else
    let v := c.toNat - 0x10000
    u4 (0xD800 + v / 0x400) ++ u4 (0xDC00 + v % 0x400)

/-- A string literal as `json.dumps` renders it. -/
def dumpStr (s : List Char) : List Char :=
  '"' :: (s.foldr (fun c acc => escapeChar c ++ acc) ['"'])

mutual
/-- `json.dumps` with its default separators `", "` and `": "`. -/
def dumpsVal : Json → List Char
  | .null => "null".data
  | .bool b => if b then "true".data else "false".data
  | .num n => intToChars n
  | .str s => dumpStr s.data
  | .arr l => '[' :: dumpsItems l ++ [']']
  | .obj o => '{' :: dumpsMembers o ++ ['}']

/-- Array items joined by `", "`. -/
def dumpsItems : JsonList → List Char
  | .nil => []
  | .cons h .nil => dumpsVal h
  | .cons h t => dumpsVal h ++ ',' :: ' ' :: dumpsItems t

/-- Object members joined by `", "`, with `": "` after each key. -/
def dumpsMembers : JsonObj → List Char
  | .nil => []
  | .cons k v .nil => dumpStr k.data ++ ':' :: ' ' :: dumpsVal v
  | .cons k v t => dumpStr k.data ++ ':' :: ' ' :: dumpsVal v ++ ',' :: ' ' :: dumpsMembers t
end

/-- `json.dumps` producing a `String`. -/
def dumps (j : Json) : String :=
  String.mk (dumpsVal j)

/-! ### Tool-call argument coercion (the three call sites)

`proxy.py` repeats the same "make `start_line`/`end_line` integers"
rewrite at three places: the request rewrite (lines 308-367), the
stream relay (lines 516-599) and the non-streaming relay (lines
683-740).  All three gate it on `tc_name == "read_file"` and a truthy
`tc_args`.  The sites differ only in how non-dict argument documents
blow up: the request site logs `args_dict.get(...)` first (an
`AttributeError` on non-dicts), while the other two go straight to
`"start_line" in args_dict` (substring/membership/`TypeError`
semantics). -/

/-- Which of the three coercion call sites is running. -/
inductive Site where
  | request : Site
  | stream : Site
  | nonstream : Site
  deriving DecidableEq

/-- The `start_line`/`end_line` string-to-int rewrite on a parsed
arguments dict.  `none` models the `ValueError` from `int(...)` on a
non-numeric string (caught by the inner handler, so nothing is
written back); otherwise returns the updated dict and whether
anything changed. -/
def coerceLineFields (kvs : JsonObj) : Option (JsonObj × Bool) :=
  let stepField : JsonObj → String → Option (JsonObj × Bool) := fun o field =>
    match o.get field with
    | some (.str s) =>
        match pyIntStr s with
        | some n => some (o.set field (.num n), true)
        | none => none
    | _ => some (o, false)
  match stepField kvs "start_line" with
  | none => none
  | some (kvs1, m1) =>
      match stepField kvs1 "end_line" with
      | none => none
      | some (kvs2, m2) => some (kvs2, m1 || m2)

/-- The inner `try` of one call site, applied to the tool call's
`arguments` value: `args_dict = json.loads(tc_args)` followed by the
field coercion.  Returns `some newArgs` when the re-serialized
arguments string must be written back, `none` when the tool call is
left untouched (no change, or an inner-caught
`JSONDecodeError`/`ValueError`); raises for the `TypeError`/
`AttributeError` paths that escape to the enclosing handler. -/
def innerCoerce (site : Site) (tcArgs : Json) : Except PyErr (Option String) :=
  match tcArgs with
  | .str s =>
      match loadsChars s.data with
      | none => .ok none
      | some d =>
          match d with
          | .obj kvs =>
              (match coerceLineFields kvs with
               | none => .ok none
               | some (kvs2, modified) =>
                   .ok (if modified then some (dumps (.obj kvs2)) else none))
          | _ =>
              match site with
              | .request => .error .attrError
              | _ =>
                  match d with
                  | .str s2 =>
                      if isSubList "start_line".data s2.data then .error .typeError
                      else if isSubList "end_line".data s2.data then .error .typeError
                      else .ok none
                  | .arr l =>
                      if l.mem (.str "start_line") then .error .typeError
                      else if l.mem (.str "end_line") then .error .typeError
                      else .ok none
                  | _ => .error .typeError
  | _ => .error .typeError

/-- `tool_call.get("function", {}).get(field, dflt) if "function" in
tool_call else dflt` — raises `AttributeError` when the `function`
value is not a dict. -/
def getFunctionField (tco : JsonObj) (field : String) (dflt : Json) :
    Except PyErr Json :=
  if tco.has "function" then
    match tco.getD "function" (.obj .nil) with
    | .obj fo => .ok (fo.getD field dflt)
    | _ => .error .attrError
  else .ok dflt

/-- One tool call at one site: compute `tc_name`/`tc_args`, apply the
`read_file` coercion, and write the re-serialized arguments back into
`tool_call["function"]["arguments"]` when modified. -/
def processToolCall (site : Site) (tco : JsonObj) :
    Except PyErr (JsonObj × Bool) :=
  let nameDflt : Json := match site with
    | .stream => .str ""
    | _ => .str "unknown"
  match getFunctionField tco "name" nameDflt with
  | .error e => .error e
  | .ok tcName =>
      match getFunctionField tco "arguments" (.str "") with
      | .error e => .error e
      | .ok tcArgs =>
          if tcName = .str "read_file" && jsonTruthy tcArgs && tco.has "function" then
            match innerCoerce site tcArgs with
            | .error e => .error e
            | .ok (some newArgs) =>
                match tco.getD "function" (.obj .nil) with
                | .obj fo =>
                    .ok (tco.set "function" (.obj (fo.set "arguments" (.str newArgs))), true)
                | _ => .ok (tco, false)
            | .ok none => .ok (tco, false)
          else .ok (tco, false)

/-! ### Request-side payload rewriting (`proxy_request`, lines 212-426) -/

/-- The tool-call loop of one request message (`for tool_call in
tool_calls`); an escaping exception aborts the whole request rewrite,
so partial results are irrelevant here. -/
def processToolCallsReq : JsonList → Except PyErr JsonList
  | .nil => .ok .nil
  | .cons tc rest =>
      match tc with
      | .obj o =>
          match processToolCall .request o with
          | .error e => .error e
          | .ok (o2, _) =>
              match processToolCallsReq rest with
              | .error e => .error e
              | .ok rest2 => .ok (.cons (.obj o2) rest2)
      | _ =>
          match processToolCallsReq rest with
          | .error e => .error e
          | .ok rest2 => .ok (.cons tc rest2)

/-- One request message: the tool-call transformation block followed
by the tool-result logging block (whose `len(tool_content)` raises on
truthy non-sized content, and whose `[:500]` slice raises on a dict
of more than 500 entries). -/
def processMessageReq (m : Json) : Except PyErr Json :=
  match m with
  | .obj mo =>
      let step1 : Except PyErr JsonObj :=
        if mo.has "tool_calls" then
          match mo.getD "tool_calls" .null with
          | .arr tcs =>
              if tcs.size > 0 then
                match processToolCallsReq tcs with
                | .error e => .error e
                | .ok tcs2 => .ok (mo.set "tool_calls" (.arr tcs2))
              else .ok mo
          | _ => .ok mo
        else .ok mo
      match step1 with
      | .error e => .error e
      | .ok mo2 =>
          if mo2.getD "role" .null = .str "tool" then
            let content := mo2.getD "content" (.str "")
            if jsonTruthy content then
              match content with
              | .str _ => .ok (.obj mo2)
              | .arr _ => .ok (.obj mo2)
              | .obj o => if o.size > 500 then .error .typeError else .ok (.obj mo2)
              | _ => .error .typeError
            else .ok (.obj mo2)
          else .ok (.obj mo2)
  | _ => .ok m

/-- The message loop of the request rewrite. -/
def processMessagesReq : JsonList → Except PyErr JsonList
  | .nil => .ok .nil
  | .cons m rest =>
      match processMessageReq m with
      | .error e => .error e
      | .ok m2 =>
          match processMessagesReq rest with
          | .error e => .error e
          | .ok rest2 => .ok (.cons m2 rest2)

/-- First validation pass: collect every `tool_calls[*].id`
(`set.add` raises `TypeError` on an unhashable id). -/
def collectToolUseIds : JsonList → Except PyErr (List Json)
  | .nil => .ok []
  | .cons m rest =>
      let here : Except PyErr (List Json) :=
        match m with
        | .obj mo =>
            if mo.has "tool_calls" then
              match mo.getD "tool_calls" .null with
              | .arr tcs => collectIds tcs
              | _ => .ok []
            else .ok []
        | _ => .ok []
      match here with
      | .error e => .error e
      | .ok ids =>
          match collectToolUseIds rest with
          | .error e => .error e
          | .ok restIds => .ok (ids ++ restIds)
where
  /-- Ids of one `tool_calls` list. -/
  collectIds : JsonList → Except PyErr (List Json)
  | .nil => .ok []
  | .cons tc rest =>
      let here : Except PyErr (List Json) :=
        match tc with
        | .obj o =>
            if o.has "id" then
              let idv := o.getD "id" .null
              if jsonHashable idv then .ok [idv]
              else .error .typeError
            else .ok []
        | _ => .ok []
      match here with
      | .error e => .error e
      | .ok ids =>
          match collectIds rest with
          | .error e => .error e
          | .ok restIds => .ok (ids ++ restIds)

/-- Second validation pass: membership checks of
`tool_result.tool_use_id` (log-only, but `in set` raises `TypeError`
on a truthy unhashable id). -/
def checkToolResults : JsonList → Except PyErr Unit
  | .nil => .ok ()
  | .cons m rest =>
      let here : Except PyErr Unit :=
        match m with
        | .obj mo =>
            if mo.has "content" then
              match mo.getD "content" .null with
              | .arr items => checkItems items
              | _ => .ok ()
            else .ok ()
        | _ => .ok ()
      match here with
      | .error e => .error e
      | .ok _ => checkToolResults rest
where
  /-- Content items of one message. -/
  checkItems : JsonList → Except PyErr Unit
  | .nil => .ok ()
  | .cons item rest =>
      let here : Except PyErr Unit :=
        match item with
        | .obj io =>
            if io.getD "type" .null = .str "tool_result" then
              let tuid := io.getD "tool_use_id" .null
              if jsonTruthy tuid && !jsonHashable tuid then .error .typeError
              else .ok ()
            else .ok ()
        | _ => .ok ()
      match here with
      | .error e => .error e
      | .ok _ => checkItems rest

/-- The tools-logging pass (`for i, tool in enumerate(...)`):
iterating a non-iterable `tools` value raises `TypeError`, and
`tool["function"].get(...)` raises `AttributeError` when that value
is not a dict. -/
def toolsPass (body : JsonObj) : Except PyErr Unit :=
  if body.has "tools" then
    match body.getD "tools" (.arr .nil) with
    | .arr ts => checkTools ts
    | .obj _ => .ok ()
    | .str _ => .ok ()
    | _ => .error .typeError
  else .ok ()
where
  /-- One pass over the tools list. -/
  checkTools : JsonList → Except PyErr Unit
  | .nil => .ok ()
  | .cons t rest =>
      let here : Except PyErr Unit :=
        match t with
        | .obj o =>
            if o.has "function" then
              match o.getD "function" .null with
              | .obj _ => .ok ()
              | _ => .error .attrError
            else .ok ()
        | _ => .ok ()
      match here with
      | .error e => .error e
      | .ok _ => checkTools rest

/-- Lines 219-221: `body_json.pop(param, None)` for the unsupported
parameters. -/
def popUnsupported (body : JsonObj) : JsonObj :=
  ((body.pop "prompt_cache_key").pop "logprobs").pop "top_logprobs"

/-- Lines 225-228: drop `parallel_tool_calls` only when its value is
not boolean-typed. -/
def dropBadPTC (b1 : JsonObj) : JsonObj :=
  if b1.has "parallel_tool_calls" then
    if !isBool (b1.getD "parallel_tool_calls" .null) then b1.pop "parallel_tool_calls"
    else b1
  else b1

/-- The chat-completions request rewrite (lines 214-397): parameter
pops, the `parallel_tool_calls` type check, both validation passes,
the tools pass and the message transformation, in source order.  An
error models any exception reaching the `except` of line 404, in
which case the caller keeps the original body bytes. -/
def chatTransform (j : Json) : Except PyErr Json :=
  match j with
  | .obj body =>
      let b2 := dropBadPTC (popUnsupported body)
      match b2.get "messages" with
      | some (.arr msgs) =>
          match collectToolUseIds msgs with
          | .error e => .error e
          | .ok _ =>
              match checkToolResults msgs with
              | .error e => .error e
              | .ok _ =>
                  match toolsPass b2 with
                  | .error e => .error e
                  | .ok _ =>
                      match processMessagesReq msgs with
                      | .error e => .error e
                      | .ok msgs2 => .ok (.obj (b2.set "messages" (.arr msgs2)))
      | _ =>
          match toolsPass b2 with
          | .error e => .error e
          | .ok _ => .ok (.obj b2)
  | .arr _ => .error .typeError
  | _ => .error .attrError

/-- Chat-completions body rewrite with its enclosing
`try`/`except`: on a parse failure or any other exception the
original body is forwarded unmodified. -/
def rewriteChatBody (body : String) : String :=
  match loads body with
  | none => body
  | some j =>
      match chatTransform j with
      | .ok j2 => dumps j2
      | .error _ => body

/-- The embeddings rewrite (lines 408-426): `encoding_format`
`"base64"` becomes `"float"`; the body is re-serialized even when
unchanged; non-dict bodies raise at `.get` and fall back to the
original bytes. -/
def embeddingsTransform (j : Json) : Except PyErr Json :=
  match j with
  | .obj body =>
      .ok (.obj (if body.getD "encoding_format" .null = .str "base64" then
                   body.set "encoding_format" (.str "float")
                 else body))
  | _ => .error .attrError

/-- Embeddings body rewrite with its enclosing `try`/`except`. -/
def rewriteEmbeddingsBody (body : String) : String :=
  match loads body with
  | none => body
  | some j =>
      match embeddingsTransform j with
      | .ok j2 => dumps j2
      | .error _ => body

/-- The request-side body rewriting of `proxy_request` (lines
212-426): the chat-completions rewrite on matching paths, the
embeddings rewrite on the exact `embeddings` path, otherwise the body
passes through untouched. -/
def rewriteRequestBody (path : String) (body : String) : String :=
  let b1 :=
    if strContains path "chat/completions" && body.data ≠ [] then rewriteChatBody body
    else body
  if path = "embeddings" && b1.data ≠ [] then rewriteEmbeddingsBody b1
  else b1

/-! ### Non-streaming relay (lines 637-818) -/

/-- The tool-call loop of one response choice (an escaping exception
aborts the whole response rewrite, so partial results are
irrelevant). -/
def processToolCallsNS : JsonList → Except PyErr JsonList
  | .nil => .ok .nil
  | .cons tc rest =>
      match tc with
      | .obj o =>
          match processToolCall .nonstream o with
          | .error e => .error e
          | .ok (o2, _) =>
              match processToolCallsNS rest with
              | .error e => .error e
              | .ok rest2 => .ok (.cons (.obj o2) rest2)
      | _ =>
          match processToolCallsNS rest with
          | .error e => .error e
          | .ok rest2 => .ok (.cons tc rest2)

/-- One non-streaming response choice. -/
def processChoiceNS (c : Json) : Except PyErr Json :=
  match c with
  | .obj co =>
      if co.has "message" then
        match co.getD "message" .null with
        | .obj msgo =>
            if msgo.has "tool_calls" then
              match msgo.getD "tool_calls" .null with
              | .arr tcs =>
                  if tcs.size > 0 then
                    match processToolCallsNS tcs with
                    | .error e => .error e
                    | .ok tcs2 =>
                        .ok (.obj (co.set "message" (.obj (msgo.set "tool_calls" (.arr tcs2)))))
                  else .ok c
              | _ => .ok c
            else .ok c
        | _ => .ok c
      else .ok c
  | _ => .ok c

/-- The choice loop of the non-streaming relay. -/
def processChoicesNS : JsonList → Except PyErr JsonList
  | .nil => .ok .nil
  | .cons c rest =>
      match processChoiceNS c with
      | .error e => .error e
      | .ok c2 =>
          match processChoicesNS rest with
          | .error e => .error e
          | .ok rest2 => .ok (.cons c2 rest2)

/-- The whole-document walk of the non-streaming relay, including the
`"choices" in response_json` guard on non-dict documents (substring
test on strings, membership on lists — a hit means a `TypeError` from
indexing — and a `TypeError` outright on other types). -/
def nsWalk (j : Json) : Except PyErr Json :=
  match j with
  | .obj ro =>
      match ro.get "choices" with
      | some (.arr cs) =>
          match processChoicesNS cs with
          | .error e => .error e
          | .ok cs2 => .ok (.obj (ro.set "choices" (.arr cs2)))
      | _ => .ok j
  | .arr l => if l.mem (.str "choices") then .error .typeError else .ok j
  | .str s => if isSubList "choices".data s.data then .error .typeError else .ok j
  | _ => .error .typeError

/-- Body transformation of the non-streaming relay: on status-200
chat-completions responses the body is parsed, rewritten and
unconditionally re-serialized; any exception falls back to the
original bytes. -/
def transformNSBody (content : String) : String :=
  match loads content with
  | none => content
  | some j =>
      match nsWalk j with
      | .ok j2 => dumps j2
      | .error _ => content

/-- The non-streaming relay (lines 641-752): only 200-status
responses on chat-completions routes are rewritten; everything else
is forwarded byte-for-byte. -/
def relayNonStreaming (status : Nat) (path : String) (content : String) : String :=
  if status = 200 && strContains path "chat/completions" then transformNSBody content
  else content

/-! ### Stream relay (`stream_generator`, lines 450-628) -/

/-- The tool-call loop of one streaming delta.  Unlike the other two
sites, an exception here is caught *around the whole line* (line 618)
after in-place mutations have already been applied, so the fold keeps
partial results: it returns the updated list, whether any call was
modified, and whether an exception aborted the remainder. -/
def processToolCallsStream : JsonList → JsonList × Bool × Bool
  | .nil => (.nil, false, false)
  | .cons tc rest =>
      match tc with
      | .obj o =>
          match processToolCall .stream o with
          | .ok (o2, m) =>
              let (rest2, m2, ab) := processToolCallsStream rest
              (.cons (.obj o2) rest2, m || m2, ab)
          | .error _ => (.cons tc rest, false, true)
      | _ =>
          let (rest2, m2, ab) := processToolCallsStream rest
          (.cons tc rest2, m2, ab)

/-- The choice loop of the stream relay, with the same
partial-mutation semantics. -/
def processChoicesStream : JsonList → JsonList × Bool × Bool
  | .nil => (.nil, false, false)
  | .cons c rest =>
      match c with
      | .obj co =>
          if co.has "delta" then
            match co.getD "delta" .null with
            | .obj dlt =>
                if dlt.has "tool_calls" then
                  match dlt.getD "tool_calls" .null with
                  | .arr tcs =>
                      let (tcs2, m, ab) := processToolCallsStream tcs
                      let c2 : Json := .obj (co.set "delta" (.obj (dlt.set "tool_calls" (.arr tcs2))))
                      if ab then (.cons c2 rest, m, true)
                      else
                        let (rest2, m2, ab2) := processChoicesStream rest
                        (.cons c2 rest2, m || m2, ab2)
                  | _ =>
                      let (rest2, m2, ab2) := processChoicesStream rest
                      (.cons c rest2, m2, ab2)
                else
                  let (rest2, m2, ab2) := processChoicesStream rest
                  (.cons c rest2, m2, ab2)
            | _ =>
                let (rest2, m2, ab2) := processChoicesStream rest
                (.cons c rest2, m2, ab2)
          else
            let (rest2, m2, ab2) := processChoicesStream rest
            (.cons c rest2, m2, ab2)
      | _ =>
          let (rest2, m2, ab2) := processChoicesStream rest
          (.cons c rest2, m2, ab2)

/-- The per-event walk of the stream relay.  A non-dict event either
fails its `"choices" in data` guard or raises — both leave the event
unmodified with the exception swallowed at line 618 — so the outcome
is the same: no rewrite. -/
def streamWalk (d : Json) : Json × Bool :=
  match d with
  | .obj ro =>
      match ro.get "choices" with
      | some (.arr cs) =>
          let (cs2, m, _) := processChoicesStream cs
          (.obj (ro.set "choices" (.arr cs2)), m)
      | _ => (d, false)
  | _ => (d, false)

/-- One complete (already stripped) line of the stream: data lines
other than the `[DONE]` sentinel are parsed and re-emitted from the
mutated event exactly when some tool call was modified; everything
else — including lines whose payload fails to parse or whose
processing raises — is forwarded as-is. -/
def transformStreamLine (line : List Char) : List Char :=
  if "data: ".data.isPrefixOf line && line ≠ "data: [DONE]".data then
    match loadsChars (line.drop 6) with
    | none => line
    | some d =>
        let (d2, m) := streamWalk d
        if m then "data: ".data ++ dumpsVal d2 else line
  else line

/-- One upstream chunk: either text (the UTF-8 decode succeeded) or
an undecodable byte payload. -/
inductive Chunk where
  | text (s : List Char) : Chunk
  | binary (b : List Nat) : Chunk
  deriving DecidableEq

/-- One yielded piece of the relayed stream: encoded text, or a raw
chunk forwarded verbatim. -/
inductive Emission where
  | text (s : List Char) : Emission
  | raw (b : List Nat) : Emission
  deriving DecidableEq

/-- Extract the complete `\n`-terminated lines of a buffer (without
their terminators) and the unterminated remainder — the
`while "\n" in buffer: line, buffer = buffer.split("\n", 1)` loop. -/
def splitLines : List Char → List (List Char) × List Char
  | [] => ([], [])
  | c :: cs =>
      let p := splitLines cs
      if c = '\n' then ([] :: p.1, p.2)
      else
        match p.1 with
        | [] => ([], c :: p.2)
        | l :: ls2 => ((c :: l) :: ls2, p.2)

/-- Emit one complete line: strip it, transform it, restore the
newline. -/
def emitLine (l : List Char) : Emission :=
  .text (transformStreamLine (pyStrip l) ++ ['\n'])

/-- The chunk loop of `stream_generator`: text chunks accumulate into
the buffer whose complete lines are emitted; an undecodable chunk is
yielded raw at once (the buffer is untouched); at exhaustion the
remaining buffer is flushed as-is. -/
def relayAux : List Char → List Chunk → List Emission
  | buf, [] => if buf = [] then [] else [.text buf]
  | buf, .binary b :: cs => .raw b :: relayAux buf cs
  | buf, .text s :: cs =>
      let (ls, buf2) := splitLines (buf ++ s)
      ls.map emitLine ++ relayAux buf2 cs

/-- The stream relay on a whole chunk sequence. -/
def stream_generator (chunks : List Chunk) : List Emission :=
  relayAux [] chunks

/-! ### Retry engine (`retry_with_backoff`, lines 47-173) and the
handler's error surface (lines 820-831) -/

/-- An upstream HTTP response as `retry_with_backoff` inspects it:
its status code, the result of `(await response.aread()).decode()`
(which can raise), and the `x-ratelimit-reset-requests` header. -/
structure UpstreamResp where
  status : Nat
  bodyRead : Except Unit String
  resetHeader : Option String
  deriving DecidableEq

/-- What one call of the supplied `func()` does: return a response,
raise an `httpx.RequestError`, or raise some other exception. -/
inductive Outcome where
  | resp (r : UpstreamResp) : Outcome
  | transportErr : Outcome
  | fatalErr : Outcome
  deriving DecidableEq

/-- An `asyncio.sleep` performed by the engine: the lockout fixed
wait, a header-derived wait, or `base * 2 ** attempt +
random.uniform(0, 1)` (recorded symbolically; see
`sleepDuration`). -/
inductive SleepEvent where
  | fixedWait (secs : Nat) : SleepEvent
  | headerWait (secs : Int) : SleepEvent
  | expBackoff (base : ℚ) (attempt : Nat) : SleepEvent
  deriving DecidableEq

/-- Seconds slept for one event, given the jitter drawn for it. -/
def sleepDuration (jitter : ℚ) : SleepEvent → ℚ
  | .fixedWait w => (w : ℚ)
  | .headerWait w => (w : ℚ)
  | .expBackoff base k => base * 2 ^ k + jitter

/-- How `retry_with_backoff` ends: a genuine upstream response, a
propagated transport error, or a propagated unexpected exception. -/
inductive RetryResult where
  | success (r : UpstreamResp) : RetryResult
  | raisedTransport : RetryResult
  | raisedFatal : RetryResult
  deriving DecidableEq

/-- The 429 wait computation from the `x-ratelimit-reset-requests`
header (lines 88-110).  The initial `wait_time = max(1, reset_time -
current_time)` of line 90 is overwritten on every branch and is
therefore not represented.  Python `//` is floor division
(`Int.fdiv`). -/
def wait_time (reset_time current_time : Int) : Int :=
  let w :=
    if reset_time > current_time * 1000 then
      max 1 (reset_time.fdiv 1000 - current_time)
    else if reset_time < 3600 then max 1 reset_time
    else max 1 (reset_time - current_time)
  min w 3600

/-- The lockout phrase searched for in 429 bodies (line 68). -/
def lockoutPhrase : String := "Too many failed attempts"

/-- Record a sleep before the recursive continuation. -/
def prependSleep (e : SleepEvent) (p : RetryResult × List SleepEvent) :
    RetryResult × List SleepEvent :=
  (p.1, e :: p.2)

/-- The sleep the engine chooses before retrying a received response,
mirroring the per-response branches of lines 62-155: an unreadable
429 body (lines 133-137) and non-retryable statuses choose no sleep
(the response is returned at once); the lockout phrase chooses the
fixed wait (line 74); a parseable `x-ratelimit-reset-requests` header
chooses the computed wait (line 116) while an unparseable one falls
back to exponential backoff (lines 118-131); generic 429s and 5xx
choose exponential backoff. -/
def retrySleep (W : Nat) (D : ℚ) (t : Int) (attempt : Nat) (r : UpstreamResp) :
    Option SleepEvent :=
  if r.status = 429 then
    match r.bodyRead with
    | .error _ => none
    | .ok text =>
        if strContains text lockoutPhrase then some (.fixedWait W)
        else
          match r.resetHeader with
          | some h =>
              match pyIntStr h with
              | some v => some (.headerWait (wait_time v t))
              | none => some (.expBackoff D attempt)
          | none => some (.expBackoff D attempt)
  else if r.status ≥ 500 then some (.expBackoff D attempt)
  else none

/-- The attempt loop of `retry_with_backoff`.  `attempt` is the loop
index; `gas` is `max_retries - attempt`, so `attempt < max_retries`
iff `gas > 0`: with no gas left every branch returns (lines 76-80,
112 falling through to 137, 148-152) or re-raises (lines 165-167);
with gas left the chosen sleep happens and the loop continues.
Unexpected exceptions propagate immediately (lines 168-170). -/
def retryAux (W : Nat) (D : ℚ) (t : Int) (f : Nat → Outcome) :
    Nat → Nat → RetryResult × List SleepEvent
  | attempt, 0 =>
      (match f attempt with
       | .fatalErr => (.raisedFatal, [])
       | .transportErr => (.raisedTransport, [])
       | .resp r => (.success r, []))
  | attempt, g + 1 =>
      (match f attempt with
       | .fatalErr => (.raisedFatal, [])
       | .transportErr =>
           prependSleep (.expBackoff D attempt) (retryAux W D t f (attempt + 1) g)
       | .resp r =>
           match retrySleep W D t attempt r with
           | some e => prependSleep e (retryAux W D t f (attempt + 1) g)
           | none => (.success r, []))

/-- `retry_with_backoff(func, max_retries, base_delay)` with the
lockout wait `W` (the `RATE_LIMIT_WAIT` configuration, default 30)
and the current unix time `t`: the final result plus the sleeps
performed, in order. -/
def retry_with_backoff (max_retries : Nat) (base_delay : ℚ) (W : Nat) (t : Int)
    (f : Nat → Outcome) : RetryResult × List SleepEvent :=
  retryAux W base_delay t f 0 max_retries

/-- The status the client sees for each way `retry_with_backoff` can
end, per the handler's `except` clauses: a transport error surfaces
as 502 (lines 820-825), an unexpected exception as 500 (lines
826-831), and a returned response keeps its upstream status (lines
630-818). -/
def proxyResponseStatus : RetryResult → Nat
  | .success r => r.status
  | .raisedTransport => 502
  | .raisedFatal => 500

/-! ### Statement vocabulary and concrete inputs for the claims -/

/- Erasure of every `arguments` value, everywhere in a document: two
documents with equal erasures agree on every field that is not a
tool-call `arguments` string.  Used to state that the relays preserve
all fields other than the (coerced) arguments documents. -/
mutual
/-- Erase `arguments` values in a value. -/
def eraseVal : Json → Json
  | .obj o => .obj (eraseObj o)
  | .arr l => .arr (eraseList l)
  | x => x
/-- Erase `arguments` values in a list. -/
def eraseList : JsonList → JsonList
  | .nil => .nil
  | .cons h t => .cons (eraseVal h) (eraseList t)
/-- Erase `arguments` values in an object. -/
def eraseObj : JsonObj → JsonObj
  | .nil => .nil
  | .cons k v t =>
      .cons k (if k = "arguments" then .null else eraseVal v) (eraseObj t)
end

/- Does a document contain a `start_line` or `end_line` key at any
depth?  A document without them is one the round-trip claim exempts
nothing from. -/
mutual
/-- `start_line`/`end_line` keys anywhere in a value. -/
def mentionsLineKeys : Json → Bool
  | .obj o => mentionsLineKeysObj o
  | .arr l => mentionsLineKeysList l
  | _ => false
/-- `start_line`/`end_line` keys anywhere in a list. -/
def mentionsLineKeysList : JsonList → Bool
  | .nil => false
  | .cons h t => mentionsLineKeys h || mentionsLineKeysList t
/-- `start_line`/`end_line` keys anywhere in an object. -/
def mentionsLineKeysObj : JsonObj → Bool
  | .nil => false
  | .cons k v t =>
      (k = "start_line" || k = "end_line") || mentionsLineKeys v || mentionsLineKeysObj t
end

/-- Reference behavior of the stream relay on a fully decodable
stream: split the concatenated text into complete lines and an
unterminated remainder; emit every complete line
stripped-transformed-reterminated, then flush the remainder. -/
def relaySpec (s : List Char) : List Emission :=
  (splitLines s).1.map emitLine ++
    (if (splitLines s).2 = [] then [] else [.text (splitLines s).2])

/-- The wait duration exactly as claim C4 words it: `v/1000 - t` when
`v > t*1000`, else `v` when `v < 3600`, else `v - t`; floored at 1
and capped at 3600 (`v/1000` read as the source's integer floor
division). -/
def claimWaitTime (v t : Int) : Int :=
  min 3600 (max 1 (if v > t * 1000 then v.fdiv 1000 - t
                   else if v < 3600 then v else v - t))

/-- A well-shaped tool call with the given function name and
arguments string. -/
def mkToolCall (nm args : String) : JsonObj :=
  .cons "id" (.str "1") (.cons "type" (.str "function")
    (.cons "function"
      (.obj (.cons "name" (.str nm) (.cons "arguments" (.str args) .nil))) .nil))

/-- The `arguments` value of the first tool call of the first message
of a chat body. -/
def firstMessageToolCallArgs (j : Json) : Option Json :=
  match j with
  | .obj o =>
      match o.get "messages" with
      | some (.arr (.cons (.obj mo) _)) =>
          match mo.get "tool_calls" with
          | some (.arr (.cons (.obj tco) _)) =>
              match tco.get "function" with
              | some (.obj fo) => fo.get "arguments"
              | _ => none
          | _ => none
      | _ => none
  | _ => none

/-- A chat body whose only tool call is named `write_file` and has a
string-typed `start_line` (already in `json.dumps` normal form). -/
def c1Body : String :=
  "\x7b\"messages\": [\x7b\"tool_calls\": [\x7b\"id\": \"1\", \"type\": \"function\", \"function\": \x7b\"name\": \"write_file\", \"arguments\": \"\x7b\\\"start_line\\\": \\\"5\\\"\x7d\"\x7d\x7d]\x7d]\x7d"

/-- The parsed form of `c1Body`. -/
def c1Doc : Json :=
  .obj (.cons "messages" (.arr (.cons
    (.obj (.cons "tool_calls" (.arr (.cons
      (.obj (mkToolCall "write_file" "\x7b\"start_line\": \"5\"\x7d")) .nil)) .nil)) .nil)) .nil)

/-- A 200-status chat-completions body with no `start_line`/`end_line`
anywhere, whose single field does not survive the relay
byte-for-byte. -/
def c2Body : String := "\x7b\"note\":\"é\"\x7d"

/-- A syntactically valid chat body on which the rewrite pass dies
midway (iterating the non-iterable `tools` value raises `TypeError`),
so the original bytes — unsupported keys included — go upstream. -/
def c9Body : String := "\x7b\"prompt_cache_key\": 1, \"tools\": 5\x7d"

/-- The parsed fields of `c9Body`. -/
def c9Fields : JsonObj :=
  .cons "prompt_cache_key" (.num 1) (.cons "tools" (.num 5) .nil)

/-- A 429 body carrying the lockout phrase. -/
def lockoutBody : String := "Error: Too many failed attempts, please wait"

/-- A lockout 429 response. -/
def lockoutResp : UpstreamResp := ⟨429, .ok lockoutBody, none⟩

/-- A 429 response whose body read raises. -/
def brokenResp : UpstreamResp := ⟨429, .error (), some "30"⟩

/-- A chat body exercising the happy path of the request rewrite:
the three unsupported keys, a malformed `parallel_tool_calls`, and an
untouched key. -/
def c9HappyFields : JsonObj :=
  .cons "prompt_cache_key" (.num 1) (.cons "logprobs" (.bool true)
    (.cons "top_logprobs" (.num 3) (.cons "parallel_tool_calls" (.str "yes")
      (.cons "model" (.str "m") .nil))))

/-- The string-typed line-argument document of the spec's example. -/
def strLineArgs : String := "\x7b\"start_line\": \"5\", \"end_line\": \"10\"\x7d"

/-- Its integer-typed coercion image. -/
def intLineArgs : String := "\x7b\"start_line\": 5, \"end_line\": 10\x7d"

/-- Parsed fields of `strLineArgs`. -/
def strLineFields : JsonObj :=
  .cons "start_line" (.str "5") (.cons "end_line" (.str "10") .nil)

/-- Parsed fields of `intLineArgs`. -/
def intLineFields : JsonObj :=
  .cons "start_line" (.num 5) (.cons "end_line" (.num 10) .nil)

/-- A 200-status chat-completions response body whose single choice
carries a `read_file` tool call with a string-typed `start_line`. -/
def c2wBody : String :=
  "\x7b\"id\": \"x\", \"choices\": [\x7b\"message\": \x7b\"tool_calls\": [\x7b\"id\": \"1\", \"type\": \"function\", \"function\": \x7b\"name\": \"read_file\", \"arguments\": \"\x7b\\\"start_line\\\": \\\"5\\\"\x7d\"\x7d\x7d]\x7d\x7d]\x7d"

/-- The parsed form of `c2wBody`. -/
def c2wDoc : Json :=
  .obj (.cons "id" (.str "x") (.cons "choices" (.arr (.cons
    (.obj (.cons "message" (.obj (.cons "tool_calls" (.arr (.cons
      (.obj (mkToolCall "read_file" "\x7b\"start_line\": \"5\"\x7d")) .nil)) .nil)) .nil)) .nil)) .nil))

/-- `c2wDoc` after the non-streaming walk: the arguments string is
integer-typed, everything else untouched. -/
def c2wDocOut : Json :=
  .obj (.cons "id" (.str "x") (.cons "choices" (.arr (.cons
    (.obj (.cons "message" (.obj (.cons "tool_calls" (.arr (.cons
      (.obj (mkToolCall "read_file" "\x7b\"start_line\": 5\x7d")) .nil)) .nil)) .nil)) .nil)) .nil))

/-! ## Theorems -/

/-- Auxiliary: the engine consults only attempts `attempt ..
attempt + gas`; two operation streams agreeing there run
identically. -/
theorem retryAux_congr (W : Nat) (D : ℚ) (t : Int) (f g : Nat → Outcome) :
    ∀ gas attempt, (∀ i, attempt ≤ i → i ≤ attempt + gas → f i = g i) →
      retryAux W D t f attempt gas = retryAux W D t g attempt gas := by
  intro gas
  induction gas with
  | zero =>
      intro attempt h
      have h0 : f attempt = g attempt := h attempt le_rfl (by omega)
      simp only [retryAux]
      rw [h0]
  | succ g' ih =>
      intro attempt h
      have h0 : f attempt = g attempt := h attempt le_rfl (by omega)
      have hrec := ih (attempt + 1) (fun i h1 h2 => h i (by omega) (by omega))
      simp only [retryAux]
      rw [h0, hrec]

/-- Auxiliary: an all-lockout stream sleeps the fixed wait once per
remaining retry and ends with the last response. -/
theorem retryAux_lockout (W : Nat) (D : ℚ) (t : Int) (f : Nat → Outcome)
    (r : UpstreamResp) (body : String) (hs : r.status = 429)
    (hb : r.bodyRead = .ok body) (hph : strContains body lockoutPhrase = true)
    (hf : ∀ i, f i = .resp r) :
    ∀ gas attempt, retryAux W D t f attempt gas
      = (.success r, List.replicate gas (.fixedWait W)) := by
  intro gas
  induction gas with
  | zero =>
      intro attempt
      simp [retryAux, hf]
  | succ g ih =>
      intro attempt
      simp [retryAux, hf, retrySleep, hs, hb, hph, prependSleep, ih,
        List.replicate_succ]

/-- Auxiliary: an all-transport-error stream backs off once per
remaining retry and then propagates the error. -/
theorem retryAux_transport (W : Nat) (D : ℚ) (t : Int) (f : Nat → Outcome)
    (hf : ∀ i, f i = .transportErr) :
    ∀ gas attempt, retryAux W D t f attempt gas
      = (.raisedTransport, (List.range' attempt gas).map (.expBackoff D)) := by
  intro gas
  induction gas with
  | zero =>
      intro attempt
      simp [retryAux, hf, List.range']
  | succ g ih =>
      intro attempt
      simp [retryAux, hf, prependSleep, ih, List.range']

/-- C4: for a numeric `x-ratelimit-reset-requests` value `v` at
current time `t`, the computed wait is `v/1000 - t` (floor division)
when `v > t*1000`, else `v` when `v < 3600`, else `v - t`, floored at
1 and capped at 3600 — the code's computation coincides with the
claim's piecewise formula and always lands in `[1, 3600]`. -/
theorem C4_header_wait_heuristic (v t : Int) :
    wait_time v t = claimWaitTime v t ∧
    1 ≤ wait_time v t ∧ wait_time v t ≤ 3600 := by
  refine ⟨?_, ?_, ?_⟩
  · simp only [wait_time, claimWaitTime]
    by_cases h1 : v > t * 1000
    · simp only [if_pos h1]
      exact min_comm _ _
    · by_cases h2 : v < 3600
      · simp only [if_neg h1, if_pos h2]
        exact min_comm _ _
      · simp only [if_neg h1, if_neg h2]
        exact min_comm _ _
  · simp only [wait_time]
    refine le_min ?_ (by norm_num)
    split
    · exact le_max_left _ _
    · split
      · exact le_max_left _ _
      · exact le_max_left _ _
  · simp only [wait_time]
    exact min_le_right _ _

/-- C5: the engine consults only attempts `0..N` (at most `N` retries
after the initial attempt), and on an all-lockout stream it sleeps
the fixed configured wait (independent of the attempt number) before
each of its `N` retries and finally returns the last 429 response
as-is. -/
theorem C5_lockout_exhaustion :
    (∀ (W : Nat) (D : ℚ) (t : Int) (N : Nat) (f g : Nat → Outcome),
        (∀ i, i ≤ N → f i = g i) →
        retry_with_backoff N D W t f = retry_with_backoff N D W t g) ∧
    (∀ (W : Nat) (D : ℚ) (t : Int) (N : Nat) (f : Nat → Outcome)
        (r : UpstreamResp) (body : String),
        r.status = 429 → r.bodyRead = .ok body →
        strContains body lockoutPhrase = true → (∀ i, f i = .resp r) →
        retry_with_backoff N D W t f
          = (.success r, List.replicate N (.fixedWait W))) := by
  constructor
  · intro W D t N f g h
    exact retryAux_congr W D t f g N 0 (fun i h1 h2 => h i (by omega))
  · intro W D t N f r body hs hb hph hf
    exact retryAux_lockout W D t f r body hs hb hph hf N 0

/-- Witness for C5: with `max_retries = 2` and three consecutive
lockout 429s, exactly two 30-second fixed waits happen and the final
429 is returned verbatim. -/
theorem C5_lockout_exhaustion_witness :
    retry_with_backoff 2 1 30 0 (fun _ => .resp lockoutResp)
      = (.success lockoutResp, [.fixedWait 30, .fixedWait 30]) := by
  have h := C5_lockout_exhaustion.2 30 1 0 2 (fun _ => .resp lockoutResp)
    lockoutResp lockoutBody rfl rfl (by decide) (fun _ => rfl)
  simpa using h

/-- C7: a transport error on every attempt produces the jittered
exponential backoff `D * 2 ** attempt + U(0,1)` before each of the
`N` retries, then the error propagates instead of a response, and the
handler turns the propagated transport error into a 502. -/
theorem C7_transport_propagation :
    (∀ (W : Nat) (D : ℚ) (t : Int) (N : Nat) (f : Nat → Outcome),
        (∀ i, f i = .transportErr) →
        retry_with_backoff N D W t f
          = (.raisedTransport, (List.range N).map (.expBackoff D))) ∧
    proxyResponseStatus .raisedTransport = 502 ∧
    (∀ (D : ℚ) (k : Nat) (jitter : ℚ),
        sleepDuration jitter (.expBackoff D k) = D * 2 ^ k + jitter) := by
  refine ⟨?_, rfl, fun D k jitter => rfl⟩
  intro W D t N f hf
  rw [retry_with_backoff, retryAux_transport W D t f hf N 0, List.range_eq_range']

/-- Witness for C7: two attempts' worth of transport errors with
`max_retries = 2` back off twice and surface as a 502. -/
theorem C7_transport_propagation_witness :
    retry_with_backoff 2 1 30 0 (fun _ => .transportErr)
      = (.raisedTransport, [.expBackoff 1 0, .expBackoff 1 1]) := by
  have h := C7_transport_propagation.1 30 1 0 2 (fun _ => .transportErr) (fun _ => rfl)
  simpa using h

/-- C10: if reading/decoding a 429 response's body raises inside
`retry_with_backoff`, that 429 is returned immediately — no sleep, no
further attempts — whatever retry budget remains. -/
theorem C10_broken_429_immediate (N : Nat) (D : ℚ) (W : Nat) (t : Int)
    (f : Nat → Outcome) (r : UpstreamResp) (hf : f 0 = .resp r)
    (hs : r.status = 429) (hb : r.bodyRead = .error ()) :
    retry_with_backoff N D W t f = (.success r, []) := by
  cases N with
  | zero => simp [retry_with_backoff, retryAux, hf]
  | succ g => simp [retry_with_backoff, retryAux, hf, retrySleep, hs, hb]

/-- Witness for C10: a concrete unreadable 429 with budget left. -/
theorem C10_broken_429_immediate_witness :
    retry_with_backoff 5 1 30 0 (fun _ => .resp brokenResp)
      = (.success brokenResp, []) :=
  C10_broken_429_immediate 5 1 30 0 (fun _ => .resp brokenResp) brokenResp rfl rfl rfl

/-- C8: a body that fails to parse as JSON is forwarded unmodified on
every rewritten route, and a rewrite pass that raises likewise falls
back to the original bytes — the failure never becomes an error
result. -/
theorem C8_parse_failure_passthrough :
    (∀ (path : String) (s : String), loads s = none →
        rewriteRequestBody path s = s) ∧
    (∀ (s : String) (j : Json) (e : PyErr), loads s = some j →
        chatTransform j = .error e → rewriteChatBody s = s) ∧
    (∀ (s : String) (j : Json) (e : PyErr), loads s = some j →
        embeddingsTransform j = .error e → rewriteEmbeddingsBody s = s) := by
  refine ⟨?_, ?_, ?_⟩
  · intro path s h
    have hc : rewriteChatBody s = s := by simp [rewriteChatBody, h]
    have he : rewriteEmbeddingsBody s = s := by simp [rewriteEmbeddingsBody, h]
    simp [rewriteRequestBody, hc, he]
  · intro s j e h1 h2
    simp [rewriteChatBody, h1, h2]
  · intro s j e h1 h2
    simp [rewriteEmbeddingsBody, h1, h2]

/-- Witness for C8: a non-JSON chat body passes through, and a body
whose rewrite raises mid-pass passes through. -/
theorem C8_parse_failure_passthrough_witness :
    rewriteRequestBody "v1/chat/completions" "not json" = "not json" ∧
    rewriteChatBody c9Body = c9Body :=
  ⟨C8_parse_failure_passthrough.1 "v1/chat/completions" "not json" (by decide),
   C8_parse_failure_passthrough.2.1 c9Body (.obj c9Fields) .typeError
     (by decide) (by decide)⟩

set_option maxRecDepth 100000 in
/-- C6: the coercion maps `{"start_line":"5","end_line":"10"}` to the
integer-typed `{"start_line":5,"end_line":10}` at every call site,
while an already-integer document is left unchanged with
`modified = False`, so the original arguments string is never
re-serialized (`innerCoerce` yields no replacement string and the
tool call round-trips identically). -/
theorem C6_coercion_roundtrip :
    coerceLineFields strLineFields = some (intLineFields, true) ∧
    coerceLineFields intLineFields = some (intLineFields, false) ∧
    (∀ site, innerCoerce site (.str strLineArgs) = .ok (some intLineArgs)) ∧
    (∀ site, innerCoerce site (.str intLineArgs) = .ok none) ∧
    (∀ site, processToolCall site (mkToolCall "read_file" strLineArgs)
        = .ok (mkToolCall "read_file" intLineArgs, true)) ∧
    (∀ site, processToolCall site (mkToolCall "read_file" intLineArgs)
        = .ok (mkToolCall "read_file" intLineArgs, false)) := by
  refine ⟨by decide, by decide, ?_, ?_, ?_, ?_⟩ <;>
    (intro site; cases site <;> decide)

set_option maxRecDepth 400000 in
/-- C1 counterexample: a chat body whose only tool call is named
`write_file` and carries a string-typed `start_line` survives the
request rewrite with the argument still string-typed — the coercion
is *not* applied regardless of the function name. -/
theorem C1_counterexample_write_file :
    rewriteChatBody c1Body = c1Body ∧
    loads c1Body = some c1Doc ∧
    firstMessageToolCallArgs c1Doc = some (.str "\x7b\"start_line\": \"5\"\x7d") ∧
    loads "\x7b\"start_line\": \"5\"\x7d"
      = some (.obj (.cons "start_line" (.str "5") .nil)) := by
  exact ⟨by decide, by decide, by decide, by decide⟩

set_option maxRecDepth 100000 in
/-- C1 as amended: the coercion is applied to a tool call exactly
when its function name is `read_file` (with a truthy arguments
value); any other name leaves the tool call untouched and unmodified
at all three sites, while `read_file` calls are coerced at all three
sites. -/
theorem C1_amended_read_file_only :
    (∀ (site : Site) (nm args : String), nm ≠ "read_file" →
        processToolCall site (mkToolCall nm args)
          = .ok (mkToolCall nm args, false)) ∧
    (∀ site : Site, processToolCall site (mkToolCall "read_file" strLineArgs)
        = .ok (mkToolCall "read_file" intLineArgs, true)) := by
  constructor
  · intro site nm args h
    have hname : (Json.str nm = Json.str "read_file") = False := by
      simp [h]
    simp [processToolCall, mkToolCall, getFunctionField, JsonObj.has,
      JsonObj.get, JsonObj.getD, hname]
  · intro site
    cases site <;> decide

/-- Witness for the amended C1: a `write_file` tool call with a
string-typed `start_line` is left exactly as it came. -/
theorem C1_amended_read_file_only_witness :
    processToolCall .request (mkToolCall "write_file" "\x7b\"start_line\": \"5\"\x7d")
      = .ok (mkToolCall "write_file" "\x7b\"start_line\": \"5\"\x7d", false) :=
  C1_amended_read_file_only.1 .request "write_file" "\x7b\"start_line\": \"5\"\x7d"
    (by decide)

set_option maxRecDepth 100000 in
/-- C2 counterexample: a 200-status chat-completions body with no
`start_line`/`end_line` field anywhere is nevertheless not returned
byte-identical: the unconditional re-serialization rewrites the
`note` field's bytes (non-ASCII escaping and separator spacing). -/
theorem C2_counterexample_reserialization :
    relayNonStreaming 200 "chat/completions" c2Body = "\x7b\"note\": \"\\u00e9\"\x7d" ∧
    relayNonStreaming 200 "chat/completions" c2Body ≠ c2Body ∧
    loads c2Body = some (.obj (.cons "note" (.str "é") .nil)) ∧
    mentionsLineKeys (.obj (.cons "note" (.str "é") .nil)) = false := by
  exact ⟨by decide, by decide, by decide, by decide⟩

set_option maxRecDepth 100000 in
/-- C3 counterexample: a complete line that does not start with the
event-data marker is *not* passed through unchanged — `line.strip()`
drops its surrounding whitespace before the newline is restored. -/
theorem C3_counterexample_strip :
    stream_generator [.text "hi \n".data] = [.text "hi\n".data] ∧
    "hi\n".data ≠ "hi \n".data := by
  exact ⟨by decide, by decide⟩

set_option maxRecDepth 100000 in
/-- C9 counterexample: a syntactically valid chat-completions body
containing `prompt_cache_key` on which a later rewrite pass raises
(`enumerate` over the non-iterable `tools` value) is forwarded as the
original bytes, so the unsupported key *does* reach upstream. -/
theorem C9_counterexample_abort_keeps_keys :
    loads c9Body = some (.obj c9Fields) ∧
    chatTransform (.obj c9Fields) = .error .typeError ∧
    rewriteChatBody c9Body = c9Body ∧
    c9Fields.has "prompt_cache_key" = true := by
  exact ⟨by decide, by decide, by decide, by decide⟩

/-- Auxiliary: line extraction distributes over concatenation — the
complete lines of `a ++ b` are those of `a` followed by those of
`a`'s unterminated remainder prepended to `b`. -/
theorem splitLines_append (a b : List Char) :
    splitLines (a ++ b)
      = ((splitLines a).1 ++ (splitLines ((splitLines a).2 ++ b)).1,
         (splitLines ((splitLines a).2 ++ b)).2) := by
  induction a with
  | nil => simp [splitLines]
  | cons c cs ih =>
      by_cases hc : c = '\n'
      · subst hc
        simp [splitLines, ih]
      · rcases h1 : (splitLines cs).1 with _ | ⟨l, ls2⟩
        · simp only [List.cons_append, splitLines, ih, h1, if_neg hc,
            List.nil_append]
          rcases h2 : (splitLines ((splitLines cs).2 ++ b)).1 with _ | ⟨m, ms⟩ <;>
            simp [splitLines, ih, h1, h2, hc]
        · simp [splitLines, ih, h1, hc]

/-- Auxiliary: a newline-free buffer yields no complete line. -/
theorem splitLines_no_newline (s : List Char) (h : ∀ c ∈ s, c ≠ '\n') :
    splitLines s = ([], s) := by
  induction s with
  | nil => rfl
  | cons c cs ih =>
      have hc : c ≠ '\n' := h c (by simp)
      have ih2 := ih (fun x hx => h x (by simp [hx]))
      simp [splitLines, ih2, hc]

/-- Auxiliary: the unterminated remainder is newline-free. -/
theorem splitLines_rem_no_newline (s : List Char) :
    ∀ c ∈ (splitLines s).2, c ≠ '\n' := by
  induction s with
  | nil => simp [splitLines]
  | cons c cs ih =>
      by_cases hc : c = '\n'
      · subst hc
        simpa [splitLines] using ih
      · rcases h1 : (splitLines cs).1 with _ | ⟨l, ls2⟩
        · simpa [splitLines, h1, hc] using ih
        · simpa [splitLines, h1, hc] using ih

/-- Auxiliary: the reference relay output of a concatenation. -/
theorem relaySpec_append (x y : List Char) :
    relaySpec (x ++ y)
      = (splitLines x).1.map emitLine ++ relaySpec ((splitLines x).2 ++ y) := by
  simp [relaySpec, splitLines_append x y, List.map_append, List.append_assoc]

/-- Auxiliary: on decodable chunks, the buffered chunk loop computes
exactly the reference behavior on the concatenated text. -/
theorem relayAux_text (ss : List (List Char)) :
    ∀ buf : List Char, (∀ c ∈ buf, c ≠ '\n') →
      relayAux buf (ss.map .text) = relaySpec (buf ++ ss.flatten) := by
  induction ss with
  | nil =>
      intro buf hbuf
      simp [relayAux, relaySpec, splitLines_no_newline buf hbuf]
  | cons s ss' ih =>
      intro buf hbuf
      show relayAux buf (.text s :: ss'.map .text) = _
      simp only [relayAux]
      rw [ih ((splitLines (buf ++ s)).2) (splitLines_rem_no_newline _),
        List.flatten_cons, ← List.append_assoc, relaySpec_append (buf ++ s) ss'.flatten]

/-- C3 as amended: on a fully decodable stream the emitted pieces are
exactly the complete lines of the concatenated text, in order and
independent of chunk boundaries — no loss, duplication, reordering or
coalescing — but each line is emitted *stripped of surrounding
whitespace* (not unchanged) and transformed, with its newline
restored, and the unterminated remainder is flushed as-is; an
undecodable chunk is forwarded raw immediately, ahead of whatever
text is still buffered. -/
theorem C3_amended_stream_relay_lines :
    (∀ ss : List (List Char), stream_generator (ss.map .text) = relaySpec ss.flatten) ∧
    (∀ (buf : List Char) (b : List Nat) (cs : List Chunk),
        relayAux buf (.binary b :: cs) = .raw b :: relayAux buf cs) := by
  constructor
  · intro ss
    have h := relayAux_text ss [] (by simp)
    simpa [stream_generator] using h
  · intro buf b cs
    rfl

/-- Auxiliary: a popped key reads back as absent. -/
theorem JsonObj.get_pop_self : (o : JsonObj) → (k : String) →
    (o.pop k).get k = none
  | .nil, k => rfl
  | .cons k2 v t, k => by
      by_cases h : k2 = k
      · simp [JsonObj.pop, h, get_pop_self t k]
      · simp [JsonObj.pop, JsonObj.get, h, get_pop_self t k]

/-- Auxiliary: popping one key leaves every other key's value. -/
theorem JsonObj.get_pop_ne : (o : JsonObj) → (k k' : String) → k' ≠ k →
    (o.pop k).get k' = o.get k'
  | .nil, k, k', h => rfl
  | .cons k2 v t, k, k', h => by
      by_cases h2 : k2 = k
      · subst h2
        simp [JsonObj.pop, JsonObj.get, get_pop_ne t k2 k' h, Ne.symm h]
      · simp [JsonObj.pop, JsonObj.get, h2, get_pop_ne t k k' h]

/-- Auxiliary: a set key reads back as the new value. -/
theorem JsonObj.get_set_self : (o : JsonObj) → (k : String) → (v : Json) →
    (o.set k v).get k = some v
  | .nil, k, v => by simp [JsonObj.set, JsonObj.get]
  | .cons k2 w t, k, v => by
      by_cases h : k2 = k
      · simp [JsonObj.set, JsonObj.get, h]
      · simp [JsonObj.set, JsonObj.get, h, get_set_self t k v]

/-- Auxiliary: setting one key leaves every other key's value. -/
theorem JsonObj.get_set_ne : (o : JsonObj) → (k k' : String) → (v : Json) →
    k' ≠ k → (o.set k v).get k' = o.get k'
  | .nil, k, k', v, h => by simp [JsonObj.set, JsonObj.get, Ne.symm h]
  | .cons k2 w t, k, k', v, h => by
      by_cases h2 : k2 = k
      · subst h2
        simp [JsonObj.set, JsonObj.get, Ne.symm h]
      · simp [JsonObj.set, JsonObj.get, h2, get_set_ne t k k' v h]

/-- Auxiliary: the pops of the three unsupported keys touch nothing
else. -/
theorem popUnsupported_get_ne (body : JsonObj) (k : String)
    (h1 : k ≠ "prompt_cache_key") (h2 : k ≠ "logprobs")
    (h3 : k ≠ "top_logprobs") :
    (popUnsupported body).get k = body.get k := by
  unfold popUnsupported
  rw [JsonObj.get_pop_ne _ _ _ h3, JsonObj.get_pop_ne _ _ _ h2,
    JsonObj.get_pop_ne _ _ _ h1]

/-- Auxiliary: the three unsupported keys are gone after the pops. -/
theorem popUnsupported_get_removed (body : JsonObj) :
    (popUnsupported body).get "prompt_cache_key" = none ∧
    (popUnsupported body).get "logprobs" = none ∧
    (popUnsupported body).get "top_logprobs" = none := by
  have n1 : ("prompt_cache_key" : String) ≠ "top_logprobs" := by decide
  have n2 : ("prompt_cache_key" : String) ≠ "logprobs" := by decide
  have n3 : ("logprobs" : String) ≠ "top_logprobs" := by decide
  refine ⟨?_, ?_, ?_⟩
  · unfold popUnsupported
    rw [JsonObj.get_pop_ne _ _ _ n1, JsonObj.get_pop_ne _ _ _ n2,
      JsonObj.get_pop_self]
  · unfold popUnsupported
    rw [JsonObj.get_pop_ne _ _ _ n3, JsonObj.get_pop_self]
  · unfold popUnsupported
    rw [JsonObj.get_pop_self]

/-- Auxiliary: the `parallel_tool_calls` cleanup touches no other
key. -/
theorem dropBadPTC_get_ne (b : JsonObj) (k : String)
    (h : k ≠ "parallel_tool_calls") :
    (dropBadPTC b).get k = b.get k := by
  unfold dropBadPTC
  split
  · split
    · exact JsonObj.get_pop_ne _ _ _ h
    · rfl
  · rfl

/-- Auxiliary: the `parallel_tool_calls` cleanup keeps a boolean value
and drops a non-boolean one. -/
theorem dropBadPTC_ptc (b : JsonObj) (v : Json)
    (hget : b.get "parallel_tool_calls" = some v) :
    (isBool v = true → (dropBadPTC b).get "parallel_tool_calls" = some v) ∧
    (isBool v = false → (dropBadPTC b).get "parallel_tool_calls" = none) := by
  have hhas : b.has "parallel_tool_calls" = true := by
    simp [JsonObj.has, hget]
  have hgetD : b.getD "parallel_tool_calls" .null = v := by
    simp [JsonObj.getD, hget]
  constructor
  · intro hb
    simp [dropBadPTC, hhas, hgetD, hb, hget]
  · intro hb
    simp [dropBadPTC, hhas, hgetD, hb, JsonObj.get_pop_self]

/-- C9 as amended: whenever the chat-completions rewrite completes
without an internal exception, the rewritten body contains none of
`prompt_cache_key`/`logprobs`/`top_logprobs`, keeps a boolean-typed
`parallel_tool_calls` untouched and drops a non-boolean one, and
preserves every other top-level key (the `messages` value itself may
be rewritten by the tool-call coercion, but its key survives); when a
later pass raises, the original bytes — unsupported keys included —
are forwarded instead (see the counterexample). -/
theorem C9_amended_unsupported_params (body : JsonObj) (j2 : Json)
    (h : chatTransform (.obj body) = .ok j2) :
    ∃ out : JsonObj, j2 = .obj out ∧
      out.get "prompt_cache_key" = none ∧
      out.get "logprobs" = none ∧
      out.get "top_logprobs" = none ∧
      (∀ v, body.get "parallel_tool_calls" = some v →
        (isBool v = true → out.get "parallel_tool_calls" = some v) ∧
        (isBool v = false → out.get "parallel_tool_calls" = none)) ∧
      (∀ k, k ≠ "prompt_cache_key" → k ≠ "logprobs" → k ≠ "top_logprobs" →
        k ≠ "parallel_tool_calls" → k ≠ "messages" → out.get k = body.get k) ∧
      out.has "messages" = body.has "messages" := by
  have hb2 : ∀ k, k ≠ "prompt_cache_key" → k ≠ "logprobs" → k ≠ "top_logprobs" →
      k ≠ "parallel_tool_calls" →
      (dropBadPTC (popUnsupported body)).get k = body.get k := by
    intro k h1 h2 h3 h4
    rw [dropBadPTC_get_ne _ _ h4, popUnsupported_get_ne _ _ h1 h2 h3]
  have hgone1 : (dropBadPTC (popUnsupported body)).get "prompt_cache_key" = none := by
    rw [dropBadPTC_get_ne _ _ (by decide)]
    exact (popUnsupported_get_removed body).1
  have hgone2 : (dropBadPTC (popUnsupported body)).get "logprobs" = none := by
    rw [dropBadPTC_get_ne _ _ (by decide)]
    exact (popUnsupported_get_removed body).2.1
  have hgone3 : (dropBadPTC (popUnsupported body)).get "top_logprobs" = none := by
    rw [dropBadPTC_get_ne _ _ (by decide)]
    exact (popUnsupported_get_removed body).2.2
  have hptc : ∀ v, body.get "parallel_tool_calls" = some v →
      (isBool v = true →
        (dropBadPTC (popUnsupported body)).get "parallel_tool_calls" = some v) ∧
      (isBool v = false →
        (dropBadPTC (popUnsupported body)).get "parallel_tool_calls" = none) := by
    intro v hv
    have hv2 : (popUnsupported body).get "parallel_tool_calls" = some v := by
      rw [popUnsupported_get_ne _ _ (by decide) (by decide) (by decide), hv]
    exact dropBadPTC_ptc _ v hv2
  have hmsgkey : body.get "messages" = (dropBadPTC (popUnsupported body)).get "messages" :=
    (hb2 "messages" (by decide) (by decide) (by decide) (by decide)).symm
  have nmsg1 : ("prompt_cache_key" : String) ≠ "messages" := by decide
  have nmsg2 : ("logprobs" : String) ≠ "messages" := by decide
  have nmsg3 : ("top_logprobs" : String) ≠ "messages" := by decide
  have nmsg4 : ("parallel_tool_calls" : String) ≠ "messages" := by decide
  simp only [chatTransform] at h
  split at h
  · rename_i msgs heq
    split at h
    case _ e _ => exact Except.noConfusion h
    case _ =>
      split at h
      case _ e _ => exact Except.noConfusion h
      case _ =>
        split at h
        case _ e _ => exact Except.noConfusion h
        case _ =>
          split at h
          case _ e _ => exact Except.noConfusion h
          case _ =>
            rename_i msgs2 hmsgs2
            refine ⟨_, (Except.ok.inj h).symm, ?_, ?_, ?_, ?_, ?_, ?_⟩
            · rw [JsonObj.get_set_ne _ _ _ _ nmsg1]
              exact hgone1
            · rw [JsonObj.get_set_ne _ _ _ _ nmsg2]
              exact hgone2
            · rw [JsonObj.get_set_ne _ _ _ _ nmsg3]
              exact hgone3
            · intro v hv
              rw [JsonObj.get_set_ne _ _ _ _ nmsg4]
              exact hptc v hv
            · intro k h1 h2 h3 h4 h5
              rw [JsonObj.get_set_ne _ _ _ _ h5, hb2 k h1 h2 h3 h4]
            · simp [JsonObj.has, JsonObj.get_set_self, hmsgkey, heq]
  · split at h
    case _ e _ => exact Except.noConfusion h
    case _ =>
      refine ⟨_, (Except.ok.inj h).symm, hgone1, hgone2, hgone3, hptc, ?_, ?_⟩
      · intro k h1 h2 h3 h4 _
        exact hb2 k h1 h2 h3 h4
      · simp [JsonObj.has, hmsgkey]

/-- Witness for the amended C9: a concrete body whose unsupported keys
and malformed `parallel_tool_calls` all vanish while `model`
survives. -/
theorem C9_amended_unsupported_params_witness :
    ∃ out : JsonObj, Json.obj (.cons "model" (.str "m") .nil) = .obj out ∧
      out.get "prompt_cache_key" = none ∧
      out.get "logprobs" = none ∧
      out.get "top_logprobs" = none ∧
      (∀ v, c9HappyFields.get "parallel_tool_calls" = some v →
        (isBool v = true → out.get "parallel_tool_calls" = some v) ∧
        (isBool v = false → out.get "parallel_tool_calls" = none)) ∧
      (∀ k, k ≠ "prompt_cache_key" → k ≠ "logprobs" → k ≠ "top_logprobs" →
        k ≠ "parallel_tool_calls" → k ≠ "messages" →
        out.get k = c9HappyFields.get k) ∧
      out.has "messages" = c9HappyFields.has "messages" :=
  C9_amended_unsupported_params c9HappyFields (.obj (.cons "model" (.str "m") .nil))
    (by decide)

/-- Auxiliary: a present key reads back as its `getD` value. -/
theorem JsonObj.get_of_has_getD (o : JsonObj) (k : String) (d : Json)
    (h : o.has k = true) : o.get k = some (o.getD k d) := by
  rcases hg : o.get k with _ | v
  · simp [JsonObj.has, hg] at h
  · simp [JsonObj.getD, hg]

/-- Auxiliary: a truthy `get(k, "")` means the key is present with
that value (the default `""` is falsy). -/
theorem JsonObj.get_of_truthy_getD (o : JsonObj) (k : String)
    (h : jsonTruthy (o.getD k (.str "")) = true) :
    o.get k = some (o.getD k (.str "")) := by
  rcases hg : o.get k with _ | v
  · simp [JsonObj.getD, hg, jsonTruthy] at h
  · simp [JsonObj.getD, hg]

/-- Auxiliary: overwriting an existing `arguments` value is invisible
to the erasure. -/
theorem eraseObj_set_arguments : (o : JsonObj) → (v w : Json) →
    o.get "arguments" = some w →
    eraseObj (o.set "arguments" v) = eraseObj o
  | .nil, v, w, h => by simp [JsonObj.get] at h
  | .cons k2 x t, v, w, h => by
      by_cases h2 : k2 = "arguments"
      · subst h2
        simp [JsonObj.set, eraseObj]
      · have h3 : t.get "arguments" = some w := by
          simpa [JsonObj.get, h2] using h
        simp [JsonObj.set, h2, eraseObj, eraseObj_set_arguments t v w h3]

/-- Auxiliary: overwriting an existing key with an erase-equal value
is invisible to the erasure. -/
theorem eraseObj_set_other : (o : JsonObj) → (k : String) → (v w : Json) →
    o.get k = some w → eraseVal v = eraseVal w →
    eraseObj (o.set k v) = eraseObj o
  | .nil, k, v, w, hget, hv => by simp [JsonObj.get] at hget
  | .cons k2 x t, k, v, w, hget, hv => by
      by_cases h2 : k2 = k
      · subst h2
        have hw : x = w := by simpa [JsonObj.get] using hget
        subst hw
        by_cases h3 : k2 = "arguments"
        · simp [JsonObj.set, eraseObj, h3]
        · simp [JsonObj.set, eraseObj, h3, hv]
      · have h3 : t.get k = some w := by simpa [JsonObj.get, h2] using hget
        simp [JsonObj.set, h2, eraseObj, eraseObj_set_other t k v w h3 hv]

/-- Auxiliary: one tool call's coercion changes nothing but its
(erased) `arguments` value. -/
theorem processToolCall_erase (site : Site) (o o2 : JsonObj) (m : Bool)
    (h : processToolCall site o = .ok (o2, m)) : eraseObj o2 = eraseObj o := by
  simp only [processToolCall] at h
  split at h
  case _ e _ => exact Except.noConfusion h
  case _ tcName heqName =>
    split at h
    case _ e _ => exact Except.noConfusion h
    case _ tcArgs heqArgs =>
      split at h
      case isTrue hcond =>
        simp only [Bool.and_eq_true, decide_eq_true_eq] at hcond
        obtain ⟨⟨hname, hargs⟩, hhas⟩ := hcond
        split at h
        case _ e _ => exact Except.noConfusion h
        case _ newArgs hinner =>
          split at h
          case _ fo heqF =>
            have hgetF : o.get "function" = some (.obj fo) := by
              rw [JsonObj.get_of_has_getD o "function" (.obj .nil) hhas, heqF]
            have hargsVal : tcArgs = fo.getD "arguments" (.str "") := by
              simp only [getFunctionField, hhas, if_pos, heqF] at heqArgs
              exact (Except.ok.inj heqArgs).symm
            have hgetA : fo.get "arguments" = some tcArgs := by
              rw [hargsVal] at hargs ⊢
              exact JsonObj.get_of_truthy_getD fo "arguments" hargs
            have hinnerEq : eraseObj (fo.set "arguments" (.str newArgs)) = eraseObj fo :=
              eraseObj_set_arguments fo (.str newArgs) tcArgs hgetA
            have hout : o2 = o.set "function" (.obj (fo.set "arguments" (.str newArgs))) :=
              (Prod.mk.injEq _ _ _ _ ▸ (Except.ok.inj h)).1.symm
            rw [hout]
            exact eraseObj_set_other o "function" _ _ hgetF
              (by simp [eraseVal, hinnerEq])
          case _ =>
            have hout : o2 = o := ((Prod.mk.inj (Except.ok.inj h)).1).symm
            rw [hout]
        case _ =>
          have hout : o2 = o := ((Prod.mk.inj (Except.ok.inj h)).1).symm
          rw [hout]
      case isFalse =>
        have hout : o2 = o := ((Prod.mk.inj (Except.ok.inj h)).1).symm
        rw [hout]

/-- Auxiliary: the request-side tool-call loop preserves the
erasure. -/
theorem processToolCallsReq_erase : (l l2 : JsonList) →
    processToolCallsReq l = .ok l2 → eraseList l2 = eraseList l
  | .nil, l2, h => by
      simp only [processToolCallsReq] at h
      rw [← Except.ok.inj h]
  | .cons tc rest, l2, h => by
      simp only [processToolCallsReq] at h
      split at h
      case _ o =>
        split at h
        case _ e _ => exact Except.noConfusion h
        case _ o2 m heq =>
          split at h
          case _ e _ => exact Except.noConfusion h
          case _ rest2 hrest =>
            rw [← Except.ok.inj h]
            simp [eraseList, eraseVal,
              processToolCall_erase .request o o2 m heq,
              processToolCallsReq_erase rest rest2 hrest]
      case _ hne =>
        split at h
        case _ e _ => exact Except.noConfusion h
        case _ rest2 hrest =>
          rw [← Except.ok.inj h]
          simp [eraseList, processToolCallsReq_erase rest rest2 hrest]

/-- Auxiliary: the non-streaming tool-call loop preserves the
erasure. -/
theorem processToolCallsNS_erase : (l l2 : JsonList) →
    processToolCallsNS l = .ok l2 → eraseList l2 = eraseList l
  | .nil, l2, h => by
      simp only [processToolCallsNS] at h
      rw [← Except.ok.inj h]
  | .cons tc rest, l2, h => by
      simp only [processToolCallsNS] at h
      split at h
      case _ o =>
        split at h
        case _ e _ => exact Except.noConfusion h
        case _ o2 m heq =>
          split at h
          case _ e _ => exact Except.noConfusion h
          case _ rest2 hrest =>
            rw [← Except.ok.inj h]
            simp [eraseList, eraseVal,
              processToolCall_erase .nonstream o o2 m heq,
              processToolCallsNS_erase rest rest2 hrest]
      case _ hne =>
        split at h
        case _ e _ => exact Except.noConfusion h
        case _ rest2 hrest =>
          rw [← Except.ok.inj h]
          simp [eraseList, processToolCallsNS_erase rest rest2 hrest]

/-- Auxiliary: the streaming tool-call loop preserves the erasure even
across a mid-list abort. -/
theorem processToolCallsStream_erase : (l : JsonList) →
    eraseList (processToolCallsStream l).1 = eraseList l
  | .nil => rfl
  | .cons tc rest => by
      simp only [processToolCallsStream]
      split
      case _ o =>
        split
        case _ o2 m heq =>
          simp [eraseList, eraseVal,
            processToolCall_erase .stream o o2 m heq,
            processToolCallsStream_erase rest]
        case _ e heq =>
          simp [eraseList]
      case _ hne =>
        simp [eraseList, processToolCallsStream_erase rest]

/-- Auxiliary: one non-streaming choice's rewrite preserves the
erasure. -/
theorem processChoiceNS_erase (c c2 : Json) (h : processChoiceNS c = .ok c2) :
    eraseVal c2 = eraseVal c := by
  simp only [processChoiceNS] at h
  split at h
  case _ co =>
    split at h
    case isTrue hhasM =>
      split at h
      case _ msgo heqM =>
        split at h
        case isTrue hhasT =>
          split at h
          case _ tcs heqT =>
            split at h
            case isTrue hsz =>
              split at h
              case _ e _ => exact Except.noConfusion h
              case _ tcs2 htcs =>
                rw [← Except.ok.inj h]
                have hgM : co.get "message" = some (.obj msgo) := by
                  rw [JsonObj.get_of_has_getD co "message" .null hhasM, heqM]
                have hgT : msgo.get "tool_calls" = some (.arr tcs) := by
                  rw [JsonObj.get_of_has_getD msgo "tool_calls" .null hhasT, heqT]
                have hin : eraseObj (msgo.set "tool_calls" (.arr tcs2))
                    = eraseObj msgo :=
                  eraseObj_set_other msgo "tool_calls" _ _ hgT
                    (by simp [eraseVal, processToolCallsNS_erase tcs tcs2 htcs])
                have hout : eraseObj (co.set "message"
                      (.obj (msgo.set "tool_calls" (.arr tcs2)))) = eraseObj co :=
                  eraseObj_set_other co "message" _ _ hgM (by simp [eraseVal, hin])
                simp [eraseVal, hout]
            case isFalse => rw [← Except.ok.inj h]
          case _ => rw [← Except.ok.inj h]
        case isFalse => rw [← Except.ok.inj h]
      case _ => rw [← Except.ok.inj h]
    case isFalse => rw [← Except.ok.inj h]
  case _ => rw [← Except.ok.inj h]

/-- Auxiliary: the non-streaming choice loop preserves the erasure. -/
theorem processChoicesNS_erase : (l l2 : JsonList) →
    processChoicesNS l = .ok l2 → eraseList l2 = eraseList l
  | .nil, l2, h => by
      simp only [processChoicesNS] at h
      rw [← Except.ok.inj h]
  | .cons c rest, l2, h => by
      simp only [processChoicesNS] at h
      split at h
      case _ e _ => exact Except.noConfusion h
      case _ c2 hc =>
        split at h
        case _ e _ => exact Except.noConfusion h
        case _ rest2 hrest =>
          rw [← Except.ok.inj h]
          simp [eraseList, processChoiceNS_erase c c2 hc,
            processChoicesNS_erase rest rest2 hrest]

/-- Auxiliary: the streaming choice loop preserves the erasure even
across a mid-list abort. -/
theorem processChoicesStream_erase : (l : JsonList) →
    eraseList (processChoicesStream l).1 = eraseList l
  | .nil => rfl
  | .cons c rest => by
      simp only [processChoicesStream]
      split
      case _ co =>
        split
        case isTrue hhasD =>
          split
          case _ dlt heqD =>
            split
            case isTrue hhasT =>
              split
              case _ tcs heqT =>
                have hgD : co.get "delta" = some (.obj dlt) := by
                  rw [JsonObj.get_of_has_getD co "delta" .null hhasD, heqD]
                have hgT : dlt.get "tool_calls" = some (.arr tcs) := by
                  rw [JsonObj.get_of_has_getD dlt "tool_calls" .null hhasT, heqT]
                have hin : eraseObj (dlt.set "tool_calls"
                      (.arr (processToolCallsStream tcs).1)) = eraseObj dlt :=
                  eraseObj_set_other dlt "tool_calls" _ _ hgT
                    (by simp [eraseVal, processToolCallsStream_erase tcs])
                have hout : eraseObj (co.set "delta" (.obj (dlt.set "tool_calls"
                      (.arr (processToolCallsStream tcs).1)))) = eraseObj co :=
                  eraseObj_set_other co "delta" _ _ hgD (by simp [eraseVal, hin])
                split
                · simp [eraseList, eraseVal, hout]
                · simp [eraseList, eraseVal, hout,
                    processChoicesStream_erase rest]
              case _ =>
                simp [eraseList, processChoicesStream_erase rest]
            case isFalse =>
              simp [eraseList, processChoicesStream_erase rest]
          case _ =>
            simp [eraseList, processChoicesStream_erase rest]
        case isFalse =>
          simp [eraseList, processChoicesStream_erase rest]
      case _ =>
        simp [eraseList, processChoicesStream_erase rest]

/-- Auxiliary: the non-streaming document walk preserves the
erasure. -/
theorem nsWalk_erase (j j2 : Json) (h : nsWalk j = .ok j2) :
    eraseVal j2 = eraseVal j := by
  simp only [nsWalk] at h
  split at h
  case _ ro =>
    split at h
    case _ cs heq =>
      split at h
      case _ e _ => exact Except.noConfusion h
      case _ cs2 hcs =>
        rw [← Except.ok.inj h]
        have hout : eraseObj (ro.set "choices" (.arr cs2)) = eraseObj ro :=
          eraseObj_set_other ro "choices" _ _ heq
            (by simp [eraseVal, processChoicesNS_erase cs cs2 hcs])
        simp [eraseVal, hout]
    case _ => rw [← Except.ok.inj h]
  case _ l =>
    split at h
    · exact Except.noConfusion h
    · rw [← Except.ok.inj h]
  case _ s =>
    split at h
    · exact Except.noConfusion h
    · rw [← Except.ok.inj h]
  case _ => exact Except.noConfusion h

/-- Auxiliary: the streaming event walk preserves the erasure. -/
theorem streamWalk_erase (d : Json) : eraseVal (streamWalk d).1 = eraseVal d := by
  simp only [streamWalk]
  split
  case _ ro =>
    split
    case _ cs heq =>
      have hout : eraseObj (ro.set "choices" (.arr (processChoicesStream cs).1))
          = eraseObj ro :=
        eraseObj_set_other ro "choices" _ _ heq
          (by simp [eraseVal, processChoicesStream_erase cs])
      simp [eraseVal, hout]
    case _ => rfl
  case _ => rfl

/-- C2 as amended: on 200-status chat-completions documents both
relays preserve every field as a JSON *value* except the (coerced)
tool-call `arguments` strings — the erasure of all `arguments` values
is invariant — but the round-trip is not byte-identical, because the
body is unconditionally re-serialized (separator spacing and
non-ASCII escaping are normalized; see the counterexample). -/
theorem C2_amended_value_level_roundtrip :
    (∀ (j j2 : Json), nsWalk j = .ok j2 → eraseVal j2 = eraseVal j) ∧
    (∀ d : Json, eraseVal (streamWalk d).1 = eraseVal d) ∧
    (∀ (s : String) (j j2 : Json), loads s = some j → nsWalk j = .ok j2 →
        relayNonStreaming 200 "chat/completions" s = dumps j2) := by
  refine ⟨nsWalk_erase, streamWalk_erase, ?_⟩
  intro s j j2 h1 h2
  have hc : strContains "chat/completions" "chat/completions" = true := by decide
  simp [relayNonStreaming, transformNSBody, h1, h2, hc]

set_option maxRecDepth 400000 in
/-- Witness for the amended C2: a concrete response whose `read_file`
arguments get coerced while `id` and the rest survive as values. -/
theorem C2_amended_value_level_roundtrip_witness :
    eraseVal c2wDocOut = eraseVal c2wDoc ∧
    relayNonStreaming 200 "chat/completions" c2wBody = dumps c2wDocOut :=
  ⟨C2_amended_value_level_roundtrip.1 c2wDoc c2wDocOut (by decide),
   C2_amended_value_level_roundtrip.2.2 c2wBody c2wDoc c2wDocOut
     (by decide) (by decide)⟩
